import Mathlib

/-!
Shallow embedding of the aoya-pottery server behaviour
(src/app/routes/upload.tsx `loader`/`action`, src/app/routes/home.tsx `loader`).

Strings that the code manipulates structurally (filenames, object keys, URLs)
are modelled as lists of characters; opaque identifiers and fixed messages
stay `String`.  ISO-8601 timestamps compare lexicographically exactly as
their instants compare chronologically, so `uploaded_at` is modelled as `Nat`.
Calls into the object store and the database can throw; each such call is
given an explicit boolean outcome parameter (`true` = the call succeeded).
-/

abbrev Str := List Char

/-- One row of the `files` table (schema in setup SQL plus the lazily added
`display_order INTEGER` column; `NULL` is `none`). -/
structure FileRow where
  id : String
  filename : Str
  url : Str
  size : Nat
  content_type : Str
  uploaded_at : Nat
  display_order : Option Int
  deriving DecidableEq

/-- The two backing stores plus the schema-evolution flag for the
`display_order` column. -/
structure SysState where
  rows : List FileRow
  objects : List Str
  hasDisplayOrderCol : Bool
  deriving DecidableEq

/-- The JSON body and HTTP status produced by `jsonResponse`. -/
structure Resp where
  success : Bool
  status : Nat
  message : String
  deriving DecidableEq

/-- upload.tsx line 163: `const maxFileSize = 50 * 1024 * 1024`. -/
def maxFileSize : Nat := 50 * 1024 * 1024

/-- upload.tsx line 168. -/
def sizeLimitMessage : String :=
  "File size exceeds 50MB limit. Please use a smaller image."

/-- Target maximum width and JPEG quality chosen by the adaptive tier. -/
structure TierParams where
  maxWidth : Nat
  quality : Nat
  deriving DecidableEq

/-- upload.tsx lines 224-244.  The code compares `fileSizeMB = size / (1024*1024)`
(double-precision division by a power of two, hence an exact scaling) against
20 and 10, which is equivalent to comparing `size` against `20 * 1024 * 1024`
and `10 * 1024 * 1024`. -/
def selectTier (size w h : Nat) : TierParams :=
  if 20 * 1024 * 1024 < size ∨ 5000 < w ∨ 5000 < h then ⟨1600, 70⟩
  else if 10 * 1024 * 1024 < size ∨ 4000 < w ∨ 4000 < h then ⟨1800, 72⟩
  else if 3000 < w ∨ 3000 < h then ⟨1920, 75⟩
  else ⟨1920, 75⟩

/-- `Math.round (num / den)` for nonnegative arguments: round half away from
zero, i.e. `⌊num/den + 1/2⌋`. -/
def jsRound (num den : Nat) : Nat := (2 * num + den) / (2 * den)

/-- upload.tsx lines 246-268: resize exactly when the original width exceeds
the tier's maximum width; the resized height is
`Math.round(maxWidth * (originalHeight / originalWidth))`. -/
def outputDims (size w h : Nat) : Nat × Nat :=
  if (selectTier size w h).maxWidth < w then
    ((selectTier size w h).maxWidth, jsRound ((selectTier size w h).maxWidth * h) w)
  else (w, h)

/-- `String.prototype.lastIndexOf` for a single character, on the char list. -/
def lastIndexOf (c : Char) : Str → Option Nat
  | [] => none
  | x :: xs =>
    match lastIndexOf c xs with
    | some i => some (i + 1)
    | none => if x = c then some 0 else none

/-- upload.tsx lines 283-287: strip the extension only when the last dot
sits at a positive index. -/
def nameWithoutExt (name : Str) : Str :=
  match lastIndexOf '.' name with
  | some i => if 0 < i then name.take i else name
  | none => name

def jpgExt : Str := ".jpg".toList

/-- upload.tsx lines 288-294: derive the stored filename, suffixing a
millisecond timestamp before the extension on a collision with `existing`. -/
def deriveFilename (existing : List Str) (originalName : Str) (now : Nat) : Str :=
  if nameWithoutExt originalName ++ jpgExt ∈ existing then
    nameWithoutExt originalName ++ ('-' :: (Nat.repr now).toList) ++ jpgExt
  else nameWithoutExt originalName ++ jpgExt

/-- `SELECT MAX(display_order) FROM files`: the maximum over the non-null
values, `NULL` when there is none. -/
def maxDisplayOrder (rows : List FileRow) : Option Int :=
  (rows.filterMap (·.display_order)).max?

/-- upload.tsx lines 326-338: `newOrder` starts at 1, becomes `max + 1` when
the `MAX` query succeeds with a non-null result, and stays 1 when the query
throws (`maxQueryOk = false`, e.g. the column is absent). -/
def newDisplayOrder (maxQueryOk : Bool) (rows : List FileRow) : Int :=
  if maxQueryOk then
    match maxDisplayOrder rows with
    | some m => m + 1
    | none => 1
  else 1

/-- The fields of the uploaded `File` that the action reads: name, byte size,
and the decoded pixel dimensions. -/
structure UploadFile where
  name : Str
  size : Nat
  width : Nat
  height : Nat
  deriving DecidableEq

/-- upload.tsx line 314: fixed public base address. -/
def urlBase : Str := "https://asset.aoya-pottery.com/".toList

structure UploadOut where
  resp : Resp
  state : SysState
  deriving DecidableEq

/-- upload.tsx lines 155-358, `intent=upload`, happy path of the try block:
size gate, existing-filename fetch, filename derivation, object put, column
add, display-order computation, row insert.  `now` is `Date.now()`,
`encodedSize` the length of the JPEG buffer, `newId` the fresh UUID,
`maxQueryOk` whether the `MAX(display_order)` query succeeds. -/
def uploadAction (st : SysState) (f : UploadFile) (now : Nat)
    (encodedSize : Nat) (newId : String) (maxQueryOk : Bool) : UploadOut :=
  if maxFileSize < f.size then
    { resp := ⟨false, 400, sizeLimitMessage⟩, state := st }
  else
    let fname := deriveFilename (st.rows.map (·.filename)) f.name now
    let n := newDisplayOrder maxQueryOk st.rows
    let row : FileRow :=
      { id := newId, filename := fname, url := urlBase ++ fname,
        size := encodedSize, content_type := "image/jpeg".toList,
        uploaded_at := now, display_order := some n }
    { resp := ⟨true, 200, "File uploaded successfully"⟩,
      state := { rows := st.rows ++ [row], objects := fname :: st.objects,
                 hasDisplayOrderCol := true } }

/-- A provider call made by the deletion pipeline, in order. -/
inductive DelCall where
  | obj (key : Str)
  | row (id : String)
  deriving DecidableEq

structure DeleteOut where
  resp : Resp
  state : SysState
  calls : List DelCall
  deriving DecidableEq

/-- upload.tsx lines 113-153, `intent=delete`: delete the object under
`fname` from the bucket, then the row whose id is `fileId`; the first throw
lands in the catch and returns a 500 with no compensation. -/
def deleteAction (st : SysState) (fileId : String) (fname : Str)
    (objOk rowOk : Bool) : DeleteOut :=
  if objOk then
    if rowOk then
      { resp := ⟨true, 200, "File deleted successfully"⟩,
        state := { st with
          objects := st.objects.filter (fun k => k ≠ fname),
          rows := st.rows.filter (fun r => r.id ≠ fileId) },
        calls := [.obj fname, .row fileId] }
    else
      { resp := ⟨false, 500, "Failed to delete file"⟩,
        state := { st with objects := st.objects.filter (fun k => k ≠ fname) },
        calls := [.obj fname, .row fileId] }
  else
    { resp := ⟨false, 500, "Failed to delete file"⟩, state := st,
      calls := [.obj fname] }

/-- `UPDATE files SET display_order = ? WHERE id = ?`: zero or more rows
updated in place, a non-match touching nothing. -/
def applyUpdate (rows : List FileRow) (id : String) (rank : Int) : List FileRow :=
  rows.map (fun r => if r.id = id then { r with display_order := some rank } else r)

/-- All updates of `items` applied left to right. -/
def applyAll (rows : List FileRow) (items : List (String × Int)) : List FileRow :=
  items.foldl (fun rs p => applyUpdate rs p.1 p.2) rows

/-- upload.tsx lines 93-98: the sequential update loop; `ok i` tells whether
the i-th update call succeeds, and the first throw aborts the loop leaving
the updates already applied in place. -/
def reorderLoop : List FileRow → List (String × Int) → Nat → (Nat → Bool) →
    Bool × List FileRow
  | rows, [], _, _ => (true, rows)
  | rows, (id, rank) :: rest, i, ok =>
    if ok i then reorderLoop (applyUpdate rows id rank) rest (i + 1) ok
    else (false, rows)

structure ReorderOut where
  resp : Resp
  state : SysState

/-- upload.tsx lines 67-110, `intent=reorder`: a missing field
(`formData.get` returned null) or an empty string is falsy and yields a 400
before anything runs; otherwise the column-add is attempted and the loop
runs over the parsed pairs (`parsed` stands for `JSON.parse` of the field). -/
def reorderAction (st : SysState) (field : Option Str)
    (parsed : List (String × Int)) (ok : Nat → Bool) : ReorderOut :=
  match field with
  | none => { resp := ⟨false, 400, "No order data provided"⟩, state := st }
  | some s =>
    if s = [] then { resp := ⟨false, 400, "No order data provided"⟩, state := st }
    else
      match reorderLoop st.rows parsed 0 ok with
      | (true, rows) =>
        { resp := ⟨true, 200, "Order updated successfully"⟩,
          state := { st with rows := rows, hasDisplayOrderCol := true } }
      | (false, rows) =>
        { resp := ⟨false, 500, "Failed to update order"⟩,
          state := { st with rows := rows, hasDisplayOrderCol := true } }

/-- `COALESCE(display_order, 999999)` from the primary gallery query. -/
def sentinel : Int := 999999

def orderKey (r : FileRow) : Int := r.display_order.getD sentinel

/-- `ORDER BY display_order ASC, uploaded_at DESC` over the coalesced key. -/
def galleryLE (a b : FileRow) : Bool :=
  decide (orderKey a < orderKey b ∨
    (orderKey a = orderKey b ∧ b.uploaded_at ≤ a.uploaded_at))

/-- `ORDER BY uploaded_at DESC` of the fallback query. -/
def recencyLE (a b : FileRow) : Bool := decide (b.uploaded_at ≤ a.uploaded_at)

/-- upload.tsx lines 18-49 / home.tsx lines 15-46: the ordered query, the
`uploaded_at DESC` fallback when it throws, and the empty list when both
throw. -/
def loaderRead (st : SysState) (primaryOk fallbackOk : Bool) : List FileRow :=
  if primaryOk then st.rows.mergeSort galleryLE
  else if fallbackOk then st.rows.mergeSort recencyLE
  else []

/-- Concrete fixture row used by the closed witness instances. -/
def rowA : FileRow :=
  { id := "a", filename := "a.jpg".toList, url := urlBase ++ "a.jpg".toList,
    size := 10, content_type := "image/jpeg".toList, uploaded_at := 3,
    display_order := some 3 }

/-- Concrete fixture state used by the closed witness instances. -/
def stA : SysState :=
  { rows := [rowA], objects := ["a.jpg".toList], hasDisplayOrderCol := true }

/-- C1: an upload whose payload size exceeds the configured 50MB maximum is
rejected as a client error (the 4xx family; concretely HTTP 400) with the
size-limit message, and the state is unchanged: no object-store write and no
metadata-row insert. -/
theorem upload_oversize_rejected (st : SysState) (f : UploadFile)
    (now encodedSize : Nat) (newId : String) (maxQueryOk : Bool)
    (h : maxFileSize < f.size) :
    (uploadAction st f now encodedSize newId maxQueryOk).resp.success = false ∧
    (uploadAction st f now encodedSize newId maxQueryOk).resp.status = 400 ∧
    400 ≤ (uploadAction st f now encodedSize newId maxQueryOk).resp.status ∧
    (uploadAction st f now encodedSize newId maxQueryOk).resp.status < 500 ∧
    (uploadAction st f now encodedSize newId maxQueryOk).resp.message = sizeLimitMessage ∧
    (uploadAction st f now encodedSize newId maxQueryOk).state = st := by
  unfold uploadAction
  rw [if_pos h]
  exact ⟨rfl, rfl, by norm_num, by norm_num, rfl, rfl⟩

/-- Closed instance of `upload_oversize_rejected` at a 50MB+1 payload. -/
theorem upload_oversize_rejected_witness :
    maxFileSize < 52428801 ∧
    (uploadAction ⟨[], [], false⟩ ⟨"big.png".toList, 52428801, 10, 10⟩
        0 0 "nid" true).state = ⟨[], [], false⟩ :=
  ⟨by decide,
   (upload_oversize_rejected ⟨[], [], false⟩ ⟨"big.png".toList, 52428801, 10, 10⟩
      0 0 "nid" true (by decide)).2.2.2.2.2⟩

/-- C3: the stored filename is the original with its extension stripped and
`.jpg` appended; on a collision with the existing-name set a millisecond
timestamp is appended before the extension, so the stored name differs from
the colliding one and still ends in `.jpg`. -/
theorem stored_filename_spec (existing : List Str) (name : Str) (now : Nat) :
    (nameWithoutExt name ++ jpgExt ∉ existing →
      deriveFilename existing name now = nameWithoutExt name ++ jpgExt) ∧
    (nameWithoutExt name ++ jpgExt ∈ existing →
      deriveFilename existing name now
        = nameWithoutExt name ++ ('-' :: (Nat.repr now).toList) ++ jpgExt ∧
      deriveFilename existing name now ≠ nameWithoutExt name ++ jpgExt) ∧
    jpgExt <:+ deriveFilename existing name now := by
  unfold deriveFilename
  by_cases hmem : nameWithoutExt name ++ jpgExt ∈ existing
  · rw [if_pos hmem]
    refine ⟨fun hn => absurd hmem hn, fun _ => ⟨rfl, ?_⟩, ?_⟩
    · intro heq
      have hlen := congrArg List.length heq
      simp [List.length_append] at hlen
      omega
    · exact List.suffix_append _ _
  · rw [if_neg hmem]
    exact ⟨fun _ => rfl, fun hm => absurd hm hmem, List.suffix_append _ _⟩

/-- Closed instance of `stored_filename_spec` where `a.png` collides with an
existing `a.jpg`. -/
theorem stored_filename_spec_witness :
    deriveFilename ["a.jpg".toList] "a.png".toList 5
      ≠ nameWithoutExt "a.png".toList ++ jpgExt ∧
    jpgExt <:+ deriveFilename ["a.jpg".toList] "a.png".toList 5 :=
  ⟨((stored_filename_spec ["a.jpg".toList] "a.png".toList 5).2.1 (by decide)).2,
   (stored_filename_spec ["a.jpg".toList] "a.png".toList 5).2.2⟩

/-- C2: the adaptive tier picks width 1600 / quality 70 when the file
exceeds 20MB or either dimension exceeds 5000px, width 1800 / quality 72
when it exceeds 10MB or either dimension exceeds 4000px, and width 1920 /
quality 75 otherwise; downsampling happens exactly when the original width
exceeds the tier maximum, the output width then equals the maximum and the
output height is the proportionally scaled rounded height, so the stored
width is at most the tier maximum and the aspect ratio is preserved within
the rounding (`|height - maxWidth*h/w| <= 1/2`, stated multiplied out). -/
theorem tier_resize_spec (size w h : Nat) (hw : 0 < w) :
    ((20 * 1024 * 1024 < size ∨ 5000 < w ∨ 5000 < h) →
      selectTier size w h = ⟨1600, 70⟩) ∧
    (¬(20 * 1024 * 1024 < size ∨ 5000 < w ∨ 5000 < h) →
      (10 * 1024 * 1024 < size ∨ 4000 < w ∨ 4000 < h) →
      selectTier size w h = ⟨1800, 72⟩) ∧
    (¬(20 * 1024 * 1024 < size ∨ 5000 < w ∨ 5000 < h) →
      ¬(10 * 1024 * 1024 < size ∨ 4000 < w ∨ 4000 < h) →
      selectTier size w h = ⟨1920, 75⟩) ∧
    ((selectTier size w h).maxWidth < w →
      outputDims size w h
        = ((selectTier size w h).maxWidth,
           jsRound ((selectTier size w h).maxWidth * h) w)) ∧
    (w ≤ (selectTier size w h).maxWidth → outputDims size w h = (w, h)) ∧
    (outputDims size w h).1 ≤ (selectTier size w h).maxWidth ∧
    ((selectTier size w h).maxWidth < w →
      2 * (outputDims size w h).2 * w ≤ 2 * ((selectTier size w h).maxWidth * h) + w ∧
      2 * ((selectTier size w h).maxWidth * h) ≤ 2 * (outputDims size w h).2 * w + w) := by
  refine ⟨?_, ?_, ?_, ?_, ?_, ?_, ?_⟩
  · intro h1; unfold selectTier; rw [if_pos h1]
  · intro h1 h2; unfold selectTier; rw [if_neg h1, if_pos h2]
  · intro h1 h2; unfold selectTier; rw [if_neg h1, if_neg h2]; exact ite_self _
  · intro hr; unfold outputDims; rw [if_pos hr]
  · intro hr; unfold outputDims; rw [if_neg (Nat.not_lt.mpr hr)]
  · by_cases hr : (selectTier size w h).maxWidth < w
    · unfold outputDims; rw [if_pos hr]
    · unfold outputDims; rw [if_neg hr]; exact Nat.not_lt.mp hr
  · intro hr
    have hD : 0 < 2 * w := by omega
    simp only [outputDims, if_pos hr, jsRound]
    set A := (selectTier size w h).maxWidth * h with hA
    have h1 := Nat.div_add_mod (2 * A + w) (2 * w)
    have h2 := Nat.mod_lt (2 * A + w) hD
    set q := (2 * A + w) / (2 * w) with hq
    have hc : 2 * q * w = 2 * w * q := by ring
    rw [hc]
    generalize hP : 2 * w * q = P at h1 ⊢
    omega

/-- Closed instance of `tier_resize_spec`: a small 4096x2000 image lands in
the 1800/72 tier and is resized to 1800x879. -/
theorem tier_resize_spec_witness :
    selectTier 1000 4096 2000 = ⟨1800, 72⟩ ∧
    outputDims 1000 4096 2000 = (1800, 879) :=
  ⟨(tier_resize_spec 1000 4096 2000 (by decide)).2.1 (by decide) (by decide),
   by decide⟩

/-- C4: an accepted upload appends exactly one row whose `display_order` is
the current maximum plus one, and 1 when there are no rows or the
`display_order` column is absent (the `MAX` query throws). -/
theorem upload_display_order_spec (st : SysState) (f : UploadFile)
    (now encodedSize : Nat) (newId : String) (maxQueryOk : Bool)
    (hsize : f.size ≤ maxFileSize) :
    ∃ row : FileRow,
      (uploadAction st f now encodedSize newId maxQueryOk).state.rows
        = st.rows ++ [row] ∧
      row.display_order = some (newDisplayOrder maxQueryOk st.rows) ∧
      (∀ m : Int, maxQueryOk = true → maxDisplayOrder st.rows = some m →
        newDisplayOrder maxQueryOk st.rows = m + 1) ∧
      (st.rows = [] → newDisplayOrder maxQueryOk st.rows = 1) ∧
      (maxQueryOk = false → newDisplayOrder maxQueryOk st.rows = 1) := by
  unfold uploadAction
  rw [if_neg (Nat.not_lt.mpr hsize)]
  refine ⟨_, rfl, rfl, ?_, ?_, ?_⟩
  · intro m hq hm
    subst hq
    simp [newDisplayOrder, hm]
  · intro hnil
    cases maxQueryOk <;> simp [newDisplayOrder, maxDisplayOrder, hnil]
  · intro hq
    subst hq
    simp [newDisplayOrder]

/-- Closed instance of `upload_display_order_spec` on a one-row state whose
maximal `display_order` is 3. -/
theorem upload_display_order_spec_witness :
    ∃ row : FileRow,
      (uploadAction stA ⟨"b.png".toList, 100, 10, 10⟩ 7 50 "b" true).state.rows
        = stA.rows ++ [row] ∧
      row.display_order = some (newDisplayOrder true stA.rows) ∧
      (∀ m : Int, true = true → maxDisplayOrder stA.rows = some m →
        newDisplayOrder true stA.rows = m + 1) ∧
      (stA.rows = [] → newDisplayOrder true stA.rows = 1) ∧
      (true = false → newDisplayOrder true stA.rows = 1) :=
  upload_display_order_spec stA ⟨"b.png".toList, 100, 10, 10⟩ 7 50 "b" true (by decide)

/-- C5: with the primary ordered query succeeding, the gallery output is a
permutation of the rows that is sorted primarily by `display_order`
ascending with null coalesced to the 999999 sentinel (unordered rows sort
last) and secondarily by `uploaded_at` descending. -/
theorem gallery_order_spec (st : SysState) (fb : Bool) :
    List.Perm (loaderRead st true fb) st.rows ∧
    (loaderRead st true fb).Pairwise (fun a b =>
      orderKey a < orderKey b ∨
        (orderKey a = orderKey b ∧ b.uploaded_at ≤ a.uploaded_at)) := by
  have htrans : ∀ a b c : FileRow, galleryLE a b → galleryLE b c → galleryLE a c := by
    intro a b c hab hbc
    simp only [galleryLE, decide_eq_true_eq] at *
    omega
  have htotal : ∀ a b : FileRow, galleryLE a b || galleryLE b a := by
    intro a b
    simp only [galleryLE, Bool.or_eq_true, decide_eq_true_eq]
    omega
  constructor
  · simp only [loaderRead, if_pos rfl]
    exact List.mergeSort_perm st.rows galleryLE
  · simp only [loaderRead, if_pos rfl]
    have hs := List.sorted_mergeSort htrans htotal st.rows
    exact hs.imp (fun hab => by simpa [galleryLE, decide_eq_true_eq] using hab)

/-- C8: when the primary ordered query fails, the loader falls back to
`uploaded_at` descending only; when the fallback also fails it returns the
empty list instead of propagating the error. -/
theorem loader_fallback_spec (st : SysState) :
    (List.Perm (loaderRead st false true) st.rows ∧
      (loaderRead st false true).Pairwise (fun a b => b.uploaded_at ≤ a.uploaded_at)) ∧
    loaderRead st false false = [] := by
  have htrans : ∀ a b c : FileRow, recencyLE a b → recencyLE b c → recencyLE a c := by
    intro a b c hab hbc
    simp only [recencyLE, decide_eq_true_eq] at *
    omega
  have htotal : ∀ a b : FileRow, recencyLE a b || recencyLE b a := by
    intro a b
    simp only [recencyLE, Bool.or_eq_true, decide_eq_true_eq]
    omega
  refine ⟨⟨?_, ?_⟩, rfl⟩
  · simp only [loaderRead]
    exact List.mergeSort_perm st.rows recencyLE
  · simp only [loaderRead]
    have hs := List.sorted_mergeSort htrans htotal st.rows
    exact hs.imp (fun hab => by simpa [recencyLE, decide_eq_true_eq] using hab)

/-- C6: the deletion pipeline calls the object store first and the row
delete second; a failed object delete returns a 500 with the whole state
(row included) unchanged, and a failed row delete after a successful object
delete returns a 500 with the row still present and the object gone, with
no rollback. -/
theorem delete_pipeline_spec (st : SysState) (fileId : String) (fname : Str)
    (objOk rowOk : Bool) :
    (objOk = false →
      (deleteAction st fileId fname objOk rowOk).resp.success = false ∧
      (deleteAction st fileId fname objOk rowOk).resp.status = 500 ∧
      (deleteAction st fileId fname objOk rowOk).state = st ∧
      (deleteAction st fileId fname objOk rowOk).calls = [DelCall.obj fname]) ∧
    (objOk = true → rowOk = false →
      (deleteAction st fileId fname objOk rowOk).resp.success = false ∧
      (deleteAction st fileId fname objOk rowOk).resp.status = 500 ∧
      (deleteAction st fileId fname objOk rowOk).state.rows = st.rows ∧
      (deleteAction st fileId fname objOk rowOk).state.objects
        = st.objects.filter (fun k => k ≠ fname) ∧
      (deleteAction st fileId fname objOk rowOk).calls
        = [DelCall.obj fname, DelCall.row fileId]) ∧
    (objOk = true → rowOk = true →
      (deleteAction st fileId fname objOk rowOk).resp.success = true ∧
      (deleteAction st fileId fname objOk rowOk).resp.status = 200 ∧
      (deleteAction st fileId fname objOk rowOk).state.rows
        = st.rows.filter (fun r => r.id ≠ fileId) ∧
      (deleteAction st fileId fname objOk rowOk).state.objects
        = st.objects.filter (fun k => k ≠ fname) ∧
      (deleteAction st fileId fname objOk rowOk).calls
        = [DelCall.obj fname, DelCall.row fileId]) := by
  refine ⟨?_, ?_, ?_⟩
  · intro h1; subst h1; simp [deleteAction]
  · intro h1 h2; subst h1; subst h2; simp [deleteAction]
  · intro h1 h2; subst h1; subst h2; simp [deleteAction]

/-- Closed instance of `delete_pipeline_spec`: a failed object delete keeps
the state, and a failed row delete after a successful object delete keeps
the row. -/
theorem delete_pipeline_spec_witness :
    (deleteAction stA "a" "a.jpg".toList false true).state = stA ∧
    (deleteAction stA "a" "a.jpg".toList true false).state.rows = stA.rows :=
  ⟨((delete_pipeline_spec stA "a" ("a.jpg".toList) false true).1 rfl).2.2.1,
   ((delete_pipeline_spec stA "a" ("a.jpg".toList) true false).2.1 rfl rfl).2.2.1⟩

/-- The reorder loop with every call succeeding applies all updates in
submitted order. -/
theorem reorderLoop_all_ok (items : List (String × Int)) :
    ∀ (rows : List FileRow) (i0 : Nat) (ok : Nat → Bool),
      (∀ k, k < items.length → ok (i0 + k) = true) →
      reorderLoop rows items i0 ok = (true, applyAll rows items) := by
  induction items with
  | nil => intro rows i0 ok _; rfl
  | cons p rest ih =>
    obtain ⟨pid, prank⟩ := p
    intro rows i0 ok hok
    have h0 : ok i0 = true := by simpa using hok 0 (by simp)
    simp only [reorderLoop, h0, if_true]
    rw [ih (applyUpdate rows pid prank) (i0 + 1) ok ?_]
    · simp [applyAll, List.foldl_cons]
    · intro k hk
      have e : i0 + 1 + k = i0 + (k + 1) := by omega
      rw [e]
      exact hok (k + 1) (by simp only [List.length_cons]; omega)

/-- The reorder loop aborts at the first failing call, keeping exactly the
earlier updates. -/
theorem reorderLoop_first_fail (items : List (String × Int)) :
    ∀ (rows : List FileRow) (i0 : Nat) (ok : Nat → Bool) (j : Nat),
      j < items.length → ok (i0 + j) = false →
      (∀ k, k < j → ok (i0 + k) = true) →
      reorderLoop rows items i0 ok = (false, applyAll rows (items.take j)) := by
  induction items with
  | nil => intro rows i0 ok j hj _ _; simp at hj
  | cons p rest ih =>
    obtain ⟨pid, prank⟩ := p
    intro rows i0 ok j hj hfail hok
    cases j with
    | zero =>
      simp only [Nat.add_zero] at hfail
      simp [reorderLoop, hfail, applyAll]
    | succ j' =>
      have h0 : ok i0 = true := by simpa using hok 0 (Nat.succ_pos _)
      simp only [reorderLoop, h0, if_true]
      rw [ih (applyUpdate rows pid prank) (i0 + 1) ok j' ?_ ?_ ?_]
      · simp [applyAll, List.take_succ_cons]
      · simp only [List.length_cons] at hj; omega
      · have e : i0 + 1 + j' = i0 + (j' + 1) := by omega
        rw [e]; exact hfail
      · intro k hk
        have e : i0 + 1 + k = i0 + (k + 1) := by omega
        rw [e]; exact hok (k + 1) (by omega)

/-- C7: the reorder operation applies the (id, rank) updates one at a time
in submitted order with no atomicity: identifiers matching no row are
silent no-ops, the first failing call aborts the loop with a 500 while the
earlier updates stay committed, and success is returned exactly when every
update was attempted. -/
theorem reorder_apply_spec (st : SysState) (s : Str) (parsed : List (String × Int))
    (ok : Nat → Bool) (j : Nat) (hs : s ≠ []) :
    ((∀ i, i < parsed.length → ok i = true) →
      (reorderAction st (some s) parsed ok).resp.success = true ∧
      (reorderAction st (some s) parsed ok).resp.status = 200 ∧
      (reorderAction st (some s) parsed ok).state.rows = applyAll st.rows parsed) ∧
    (j < parsed.length → ok j = false → (∀ i, i < j → ok i = true) →
      (reorderAction st (some s) parsed ok).resp.success = false ∧
      (reorderAction st (some s) parsed ok).resp.status = 500 ∧
      (reorderAction st (some s) parsed ok).state.rows
        = applyAll st.rows (parsed.take j)) ∧
    (∀ (rows : List FileRow) (id : String) (rank : Int),
      (∀ r ∈ rows, r.id ≠ id) → applyUpdate rows id rank = rows) := by
  refine ⟨?_, ?_, ?_⟩
  · intro hall
    have hloop := reorderLoop_all_ok parsed st.rows 0 ok (by simpa using hall)
    simp [reorderAction, hs, hloop]
  · intro hj hfail hok
    have hloop := reorderLoop_first_fail parsed st.rows 0 ok j hj
      (by simpa using hfail) (by simpa using hok)
    simp [reorderAction, hs, hloop]
  · intro rows id rank hno
    unfold applyUpdate
    conv_rhs => rw [← List.map_id rows]
    refine List.map_congr_left ?_
    intro r hr
    rw [if_neg (hno r hr)]
    rfl

/-- Closed instance of `reorder_apply_spec`: both updates succeed, one of
them naming an id present in no row. -/
theorem reorder_apply_spec_witness :
    (reorderAction stA (some "x".toList) [("a", 2), ("zzz", 9)]
        (fun _ => true)).resp.success = true ∧
    (reorderAction stA (some "x".toList) [("a", 2), ("zzz", 9)]
        (fun _ => true)).state.rows = applyAll stA.rows [("a", 2), ("zzz", 9)] := by
  have h := (reorder_apply_spec stA "x".toList [("a", 2), ("zzz", 9)]
    (fun _ => true) 0 (by decide)).1 (fun i _ => rfl)
  exact ⟨h.1, h.2.2⟩

/-- C9: a reorder request whose `order` field is missing or empty is
answered with a 400 client error and performs no updates. -/
theorem reorder_empty_input_spec (st : SysState) (parsed : List (String × Int))
    (ok : Nat → Bool) :
    (reorderAction st none parsed ok).resp.success = false ∧
    (reorderAction st none parsed ok).resp.status = 400 ∧
    (reorderAction st none parsed ok).state = st ∧
    (reorderAction st (some []) parsed ok).resp.success = false ∧
    (reorderAction st (some []) parsed ok).resp.status = 400 ∧
    (reorderAction st (some []) parsed ok).state = st := by
  refine ⟨rfl, rfl, rfl, ?_, ?_, ?_⟩ <;> simp [reorderAction]

/-- C10: when both provider calls succeed, the deletion pipeline reports
success even if the given id matches no metadata row: the row delete
selects only by id (here affecting zero rows), the object delete only by
filename, with no check that the two identify the same record. -/
theorem delete_unknown_id_success (st : SysState) (fileId : String) (fname : Str)
    (hid : ∀ r ∈ st.rows, r.id ≠ fileId) :
    (deleteAction st fileId fname true true).resp.success = true ∧
    (deleteAction st fileId fname true true).resp.status = 200 ∧
    (deleteAction st fileId fname true true).state.rows = st.rows ∧
    (deleteAction st fileId fname true true).state.objects
      = st.objects.filter (fun k => k ≠ fname) := by
  refine ⟨rfl, rfl, ?_, rfl⟩
  show st.rows.filter (fun r => r.id ≠ fileId) = st.rows
  rw [List.filter_eq_self]
  intro r hr
  simpa using hid r hr

/-- Closed instance of `delete_unknown_id_success`: id "zzz" matches no row
of the fixture state, yet the delete succeeds and the rows are untouched. -/
theorem delete_unknown_id_success_witness :
    (deleteAction stA "zzz" "ghost.jpg".toList true true).resp.success = true ∧
    (deleteAction stA "zzz" "ghost.jpg".toList true true).state.rows = stA.rows := by
  have h := delete_unknown_id_success stA "zzz" "ghost.jpg".toList (by decide)
  exact ⟨h.1, h.2.2.1⟩
